import Mathlib

/-!
# The SR-IOV scheduler extender: promise ledger and filter engine

A shallow embedding of `pkg/extender/extender.go`.

* `resource.Quantity` is an exact decimal; the embedding uses `Int`, the
  integral quantities (VF counts), with exact subtraction and addition.
  A `time.Time` is a `Nat`.
* Go maps (`allocatedVFs`, `FailedNodes`, `Allocatable`) are association
  lists with at most one binding per key; `GoMap.set` is the Go assignment
  `m[k] = v`.
* `time.Now()` is read from a clock supplied by the environment:
  `clock i` is the wall-clock reading while the `i`-th candidate is evaluated.
* `FilterArgs` runs under the extender mutex from its first state access to
  its return, so one call is one atomic state transition `Extender → Outcome`.
-/

namespace Sriov

/-! ## Data model -/

/-- A Go `map[string]β`, kept as an association list (one binding per key). -/
abbrev GoMap (β : Type) := List (String × β)

namespace GoMap

/-- The comma-ok lookup `v, exists := m[k]`. -/
def get? {β : Type} : GoMap β → String → Option β
  | [], _ => none
  | (k', v) :: rest, k => if k' = k then some v else get? rest k

/-- The assignment `m[k] = v`: overwrite the binding of `k`, or add one. -/
def set {β : Type} : GoMap β → String → β → GoMap β
  | [], k, v => [(k, v)]
  | (k', v') :: rest, k, v => if k' = k then (k, v) :: rest else (k', v') :: set rest k v

/-- The keys of the map. -/
def keys {β : Type} (m : GoMap β) : List String := m.map Prod.fst

end GoMap

/-- The resource name `TotalVFsResource`. -/
def TotalVFsResource : String := "totalvfs"

/-- The package variable `singleItem`. -/
def singleItem : Int := 1

/-- The package variable `zero`. -/
def zero : Int := 0

/-- The three-way comparison `q.Cmp(y)`: `-1`, `0` or `1`. -/
def Cmp (q y : Int) : Int :=
  if q < y then -1 else if q = y then 0 else 1

/-- The fields of a `v1.Node` that the extender reads: `node.Name` and
`node.Status.Allocatable`. -/
structure Node where
  Name : String
  Allocatable : GoMap Int
  deriving DecidableEq, Repr

/-- The fields of a `v1.Pod` the extender and its selector read. -/
structure Pod where
  Name : String
  Namespace : String
  Annotations : GoMap String
  deriving DecidableEq, Repr

/-- Modelled from the spec: the declaration of `ExtenderArgs` is not part of
the sources at hand; a filter request is "a pod and a list of candidate nodes
with their advertised capacity" (`args.Pod`, `args.Nodes.Items`). -/
structure ExtenderArgs where
  Pod : Pod
  Nodes : List Node
  deriving DecidableEq, Repr

/-- The operands of the rejection message
`"Not sufficient number of VFs. Allocated: %v. Promised: %v. Total: %v"`,
in the order they are passed: `allocated`, `ext.promisedVFs`, `res`.
The string that `fmt.Sprintf` builds from them is `FailMsg.text`. -/
structure FailMsg where
  Allocated : Int
  Promised : Int
  Total : Int
  deriving DecidableEq, Repr

/-- The string of lines 76-79. The operands `allocated` and `ext.promisedVFs`
are pointers to a `Quantity`, which the verb `%v` prints through the method
`String` of the pointer type: `str`. The operand `res` is a `Quantity` passed
by value, which has no `String` method, so `%v` prints it with the default
formatting of a struct value, field by field: `dump`. Both renderings belong
to libraries outside the sources at hand and are taken as parameters. -/
def FailMsg.text (str dump : Int → String) (msg : FailMsg) : String :=
  "Not sufficient number of VFs. Allocated: " ++ str msg.Allocated ++
    ". Promised: " ++ str msg.Promised ++ ". Total: " ++ dump msg.Total

/-- Modelled from the spec: the declaration of `ExtenderFilterResult` is not
part of the sources at hand; a filter result is "the subset of candidate nodes
accepted, a mapping from rejected node identifier to a human-readable reason,
and an optional overall advisory message" (`Nodes.Items`, `FailedNodes`,
`Error`). -/
structure ExtenderFilterResult where
  Nodes : List Node
  FailedNodes : GoMap FailMsg
  Error : String
  deriving DecidableEq, Repr

/-- The type `Selector`: a predicate on pods. -/
abbrev Selector := Pod → Bool

/-- The struct `Extender` (the mutex is implicit: calls are atomic). -/
structure Extender where
  allocatedVFs : GoMap Int
  promises : List Nat
  promisedVFs : Int
  selector : Selector

/-- The constructor `NewExtender`. The selector `NetworkSelector` is declared
outside the sources at hand and is taken as a parameter. -/
def NewExtender (NetworkSelector : Selector) : Extender :=
  { allocatedVFs := []
    promises := []
    promisedVFs := 0
    selector := NetworkSelector }

/-! ## The filter engine -/

/-- The variables the loop of `FilterArgs` updates: the extender and the
result under construction. -/
structure LoopState where
  ext : Extender
  result : ExtenderFilterResult

/-- Lines 56-59: create the ledger entry of `name` when it is missing, then
read it. Returns the ledger and the `allocated` quantity. -/
def ledgerEntry (ledger : GoMap Int) (name : String) : GoMap Int × Int :=
  match ledger.get? name with
  | some allocated => (ledger, allocated)
  | none => (ledger.set name 0, 0)

/-- One iteration of the loop of `FilterArgs` (lines 55-82) on `node`, with
`now` the value `time.Now()` would return. -/
def visit (now : Nat) (st : LoopState) (node : Node) : LoopState :=
  let entry := ledgerEntry st.ext.allocatedVFs node.Name
  let ext1 : Extender := { st.ext with allocatedVFs := entry.1 }
  let allocated := entry.2
  match node.Allocatable.get? TotalVFsResource with
  | none => { st with ext := ext1 }
  | some total =>
    let res := total - allocated - ext1.promisedVFs
    if Cmp res zero ≠ 1 then
      { ext := { ext1 with
                  promisedVFs := ext1.promisedVFs + singleItem
                  promises := ext1.promises ++ [now] }
        result := { st.result with Nodes := st.result.Nodes ++ [node] } }
    else
      { ext := ext1
        result := { st.result with
                    FailedNodes := st.result.FailedNodes.set node.Name
                      { Allocated := allocated, Promised := ext1.promisedVFs, Total := res } } }

/-- The loop `for _, node := range args.Nodes.Items`, from iteration `i`. -/
def visitAll (clock : Nat → Nat) : Nat → List Node → LoopState → LoopState
  | _, [], st => st
  | i, node :: rest, st => visitAll clock (i + 1) rest (visit (clock i) st node)

/-- The advisory text of line 84. -/
def noNodesError : String := "No nodes have available VFs."

/-- What a call of `FilterArgs` leaves behind: the extender state after the
call and the two return values (`none` is Go's `nil`). -/
structure Outcome where
  ext : Extender
  result : Option ExtenderFilterResult
  err : Option String

/-- The method `FilterArgs`. -/
def FilterArgs (ext : Extender) (args : ExtenderArgs) (clock : Nat → Nat) : Outcome :=
  if ext.selector args.Pod = false then
    { ext := ext, result := none, err := none }
  else
    let st := visitAll clock 0 args.Nodes
      { ext := ext, result := { Nodes := [], FailedNodes := [], Error := "" } }
    let result : ExtenderFilterResult :=
      if st.result.Nodes.length = 0 then { st.result with Error := noNodesError }
      else st.result
    { ext := st.ext, result := some result, err := none }

/-- The free-capacity figure of a node in a given extender state:
advertised total minus allocated minus the global promised count. -/
def free (ext : Extender) (node : Node) (total : Int) : Int :=
  total - (ledgerEntry ext.allocatedVFs node.Name).2 - ext.promisedVFs

/-- The promise-tracker invariant: the counter equals the length of the log. -/
def PromiseInv (ext : Extender) : Prop :=
  ext.promisedVFs = (ext.promises.length : Int)

/-- A finite sequence of calls on one extender, served one after the other:
each call starts from the state the previous call left. -/
def serve (ext : Extender) : List (ExtenderArgs × (Nat → Nat)) → Extender
  | [] => ext
  | (args, clock) :: rest => serve (FilterArgs ext args clock).ext rest

/-- The results returned by a finite sequence of calls served one after the
other, in the order of the calls. -/
def serveResults (ext : Extender) :
    List (ExtenderArgs × (Nat → Nat)) → List (Option ExtenderFilterResult)
  | [] => []
  | (args, clock) :: rest =>
    (FilterArgs ext args clock).result :: serveResults (FilterArgs ext args clock).ext rest

/-- Whether a returned result has a non-empty accepted list. -/
def admitted : Option ExtenderFilterResult → Bool
  | some r => !r.Nodes.isEmpty
  | none => false

/-! ## Sample inputs -/

/-- A selector in the manner of the end-to-end test, whose pods carry the
annotation `networks: sriov`. -/
def sriovSelector : Selector :=
  fun pod => pod.Annotations.get? "networks" == some "sriov"

/-- A pod that needs a VF. -/
def sriovPod : Pod :=
  { Name := "sriov-test", Namespace := "default", Annotations := [("networks", "sriov")] }

/-- A pod without the annotation. -/
def plainPod : Pod :=
  { Name := "plain", Namespace := "default", Annotations := [] }

/-- A node that advertises `vfs` as its `totalvfs`. -/
def nodeWith (name : String) (vfs : Int) : Node :=
  { Name := name, Allocatable := [(TotalVFsResource, vfs)] }

/-- A node whose resource table has no `totalvfs` entry. -/
def bareNode (name : String) : Node :=
  { Name := name, Allocatable := [("cpu", 4)] }

/-- A clock that reads `i` at iteration `i`. -/
def tick : Nat → Nat := fun i => i

/-- An extender that has made one promise for `node-1`. -/
def onePromise : Extender :=
  { allocatedVFs := [("node-1", 0)]
    promises := [7]
    promisedVFs := 1
    selector := sriovSelector }

/-- The request of the end-to-end test, over the filter engine: a pod that
needs a VF and two nodes that each advertise `sriovTotalVFs = "1"`. -/
def testRequest : ExtenderArgs :=
  { Pod := sriovPod, Nodes := [nodeWith "node-1" 1, nodeWith "node-2" 1] }

/-- An extender whose ledger holds a non-zero entry for `node-1`. -/
def busyLedger : Extender :=
  { allocatedVFs := [("node-1", 3)]
    promises := [7]
    promisedVFs := 1
    selector := sriovSelector }

/-! ## Maps -/

theorem GoMap.get?_set_self {β : Type} (m : GoMap β) (k : String) (v : β) :
    (GoMap.set m k v).get? k = some v := by
  induction m with
  | nil => simp [GoMap.set, GoMap.get?]
  | cons kv rest ih =>
    obtain ⟨k', v'⟩ := kv
    by_cases h : k' = k
    · simp [GoMap.set, GoMap.get?, h]
    · simp [GoMap.set, GoMap.get?, h, ih]

theorem GoMap.mem_keys_set {β : Type} (m : GoMap β) (k : String) (v : β) (x : String) :
    x ∈ (GoMap.set m k v).keys ↔ x = k ∨ x ∈ GoMap.keys m := by
  induction m with
  | nil => simp [GoMap.set, GoMap.keys]
  | cons kv rest ih =>
    obtain ⟨k', v'⟩ := kv
    by_cases h : k' = k
    · subst h
      simp [GoMap.set, GoMap.keys]
    · have ih2 : x ∈ List.map Prod.fst (GoMap.set rest k v) ↔ x = k ∨ x ∈ List.map Prod.fst rest := ih
      simp only [GoMap.set, GoMap.keys, h, if_false, List.map_cons, List.mem_cons, ih2]
      tauto

/-! ## One iteration -/

theorem Cmp_zero_ne_one (q : Int) : Cmp q zero ≠ 1 ↔ q ≤ 0 := by
  have hz : zero = (0 : Int) := rfl
  unfold Cmp
  rw [hz]
  split_ifs <;> simp <;> omega

/-- The three ways an iteration can go: skip, accept, reject. -/
theorem visit_cases (now : Nat) (st : LoopState) (node : Node) :
    (node.Allocatable.get? TotalVFsResource = none ∧
      visit now st node =
        { st with ext := { st.ext with
            allocatedVFs := (ledgerEntry st.ext.allocatedVFs node.Name).1 } }) ∨
    (∃ total, node.Allocatable.get? TotalVFsResource = some total ∧
      free st.ext node total ≤ 0 ∧
      visit now st node =
        { ext := { st.ext with
                    allocatedVFs := (ledgerEntry st.ext.allocatedVFs node.Name).1
                    promisedVFs := st.ext.promisedVFs + 1
                    promises := st.ext.promises ++ [now] }
          result := { st.result with Nodes := st.result.Nodes ++ [node] } }) ∨
    (∃ total, node.Allocatable.get? TotalVFsResource = some total ∧
      0 < free st.ext node total ∧
      visit now st node =
        { ext := { st.ext with
                    allocatedVFs := (ledgerEntry st.ext.allocatedVFs node.Name).1 }
          result := { st.result with
                      FailedNodes := st.result.FailedNodes.set node.Name
                        { Allocated := (ledgerEntry st.ext.allocatedVFs node.Name).2
                          Promised := st.ext.promisedVFs
                          Total := free st.ext node total } } }) := by
  cases hcap : node.Allocatable.get? TotalVFsResource with
  | none =>
    left
    simp [visit, hcap]
  | some total =>
    right
    by_cases hfree : free st.ext node total ≤ 0
    · left
      refine ⟨total, rfl, hfree, ?_⟩
      have hc : Cmp (free st.ext node total) zero ≠ 1 := (Cmp_zero_ne_one _).2 hfree
      unfold free at hc
      simp [visit, hcap, hc, singleItem]
    · right
      refine ⟨total, rfl, not_le.1 hfree, ?_⟩
      have hc : Cmp (free st.ext node total) zero = 1 := by
        by_contra hne
        exact hfree ((Cmp_zero_ne_one _).1 hne)
      unfold free at hc
      simp [visit, hcap, hc, free]


/-! ## The loop -/

/-- Bookkeeping of the whole loop: what it appends to the promise log, to the
counter and to the accepted list. -/
theorem visitAll_account (clock : Nat → Nat) (ns : List Node) :
    ∀ (i : Nat) (st : LoopState), ∃ (added : List Nat) (accepted : List Node),
      (visitAll clock i ns st).ext.promises = st.ext.promises ++ added ∧
      (visitAll clock i ns st).ext.promisedVFs = st.ext.promisedVFs + (added.length : Int) ∧
      (visitAll clock i ns st).result.Nodes = st.result.Nodes ++ accepted ∧
      accepted.length = added.length ∧
      accepted.Sublist ns ∧
      (∀ m ∈ accepted, m.Allocatable.get? TotalVFsResource ≠ none) ∧
      (visitAll clock i ns st).result.Error = st.result.Error ∧
      (visitAll clock i ns st).ext.selector = st.ext.selector := by
  induction ns with
  | nil =>
    intro i st
    exact ⟨[], [], by simp [visitAll]⟩
  | cons n rest ih =>
    intro i st
    obtain ⟨added, accepted, h1, h2, h3, h4, h5, h6, h7, h8⟩ := ih (i + 1) (visit (clock i) st n)
    simp only [visitAll]
    rw [h1, h2, h3, h7, h8]
    rcases visit_cases (clock i) st n with ⟨_, hv⟩ | ⟨t, hc, _, hv⟩ | ⟨t, _, _, hv⟩
    · rw [hv]
      exact ⟨added, accepted, rfl, rfl, rfl, h4, h5.cons n, h6, rfl, rfl⟩
    · rw [hv]
      refine ⟨clock i :: added, n :: accepted, by simp, ?_, by simp, by simp [h4],
        h5.cons₂ n, ?_, rfl, rfl⟩
      · simp only [List.length_cons]
        push_cast
        ring
      · intro m hm
        rcases List.mem_cons.1 hm with rfl | hm
        · rw [hc]
          simp
        · exact h6 m hm
    · rw [hv]
      exact ⟨added, accepted, rfl, rfl, rfl, h4, h5.cons n, h6, rfl, rfl⟩

/-- The keys of the rejected mapping come from candidates that advertise a
capacity. -/
theorem visitAll_failed_keys (clock : Nat → Nat) (ns : List Node) :
    ∀ (i : Nat) (st : LoopState) (k : String),
      k ∈ GoMap.keys (visitAll clock i ns st).result.FailedNodes →
      k ∈ GoMap.keys st.result.FailedNodes ∨
        ∃ m ∈ ns, m.Name = k ∧ m.Allocatable.get? TotalVFsResource ≠ none := by
  induction ns with
  | nil =>
    intro i st k hk
    exact Or.inl hk
  | cons n rest ih =>
    intro i st k hk
    simp only [visitAll] at hk
    rcases ih (i + 1) (visit (clock i) st n) k hk with h | ⟨m, hm, hname, hcap⟩
    · rcases visit_cases (clock i) st n with ⟨_, hv⟩ | ⟨t, _, _, hv⟩ | ⟨t, hc, _, hv⟩
      · rw [hv] at h
        exact Or.inl h
      · rw [hv] at h
        exact Or.inl h
      · rw [hv] at h
        rcases (GoMap.mem_keys_set _ _ _ _).1 h with h | h
        · refine Or.inr ⟨n, List.mem_cons_self _ _, h.symm, ?_⟩
          rw [hc]
          simp
        · exact Or.inl h
    · exact Or.inr ⟨m, List.mem_cons_of_mem _ hm, hname, hcap⟩

/-- The call on a pod the selector accepts, unfolded. -/
theorem FilterArgs_of_selected (ext : Extender) (args : ExtenderArgs) (clock : Nat → Nat)
    (h : ext.selector args.Pod = true) :
    FilterArgs ext args clock =
      { ext := (visitAll clock 0 args.Nodes
          { ext := ext, result := { Nodes := [], FailedNodes := [], Error := "" } }).ext
        result := some
          (if (visitAll clock 0 args.Nodes
                { ext := ext, result := { Nodes := [], FailedNodes := [], Error := "" } }).result.Nodes.length = 0
           then { (visitAll clock 0 args.Nodes
                { ext := ext, result := { Nodes := [], FailedNodes := [], Error := "" } }).result with
                  Error := noNodesError }
           else (visitAll clock 0 args.Nodes
                { ext := ext, result := { Nodes := [], FailedNodes := [], Error := "" } }).result)
        err := none } := by
  simp [FilterArgs, h]

/-- Bookkeeping of one call on a pod the selector accepts. -/
theorem FilterArgs_account (ext : Extender) (args : ExtenderArgs) (clock : Nat → Nat)
    (h : ext.selector args.Pod = true) :
    ∃ (r : ExtenderFilterResult) (added : List Nat),
      (FilterArgs ext args clock).result = some r ∧
      (FilterArgs ext args clock).ext.promises = ext.promises ++ added ∧
      (FilterArgs ext args clock).ext.promisedVFs = ext.promisedVFs + (added.length : Int) ∧
      r.Nodes.length = added.length ∧
      r.Nodes.Sublist args.Nodes ∧
      (∀ m ∈ r.Nodes, m.Allocatable.get? TotalVFsResource ≠ none) ∧
      (∀ k ∈ GoMap.keys r.FailedNodes,
        ∃ m ∈ args.Nodes, m.Name = k ∧ m.Allocatable.get? TotalVFsResource ≠ none) ∧
      r.Error = (if r.Nodes.length = 0 then noNodesError else "") := by
  obtain ⟨added, accepted, h1, h2, h3, h4, h5, h6, h7, _⟩ :=
    visitAll_account clock args.Nodes 0
      { ext := ext, result := { Nodes := [], FailedNodes := [], Error := "" } }
  have hk := visitAll_failed_keys clock args.Nodes 0
      { ext := ext, result := { Nodes := [], FailedNodes := [], Error := "" } }
  rw [FilterArgs_of_selected ext args clock h]
  simp only [List.nil_append] at h3
  refine ⟨_, added, rfl, h1, h2, ?_, ?_, ?_, ?_, ?_⟩
  · split_ifs <;> simp [h3, h4]
  · split_ifs <;> simp [h3, h5]
  · intro m hm
    apply h6
    split_ifs at hm <;> simpa [h3] using hm
  · intro k hkk
    have hkk2 : k ∈ GoMap.keys (visitAll clock 0 args.Nodes
        { ext := ext, result := { Nodes := [], FailedNodes := [], Error := "" } }).result.FailedNodes := by
      split_ifs at hkk <;> simpa using hkk
    rcases hk k hkk2 with hbad | hgood
    · simp [GoMap.keys] at hbad
    · exact hgood
  · split_ifs with hz
    · rfl
    · simpa using h7

/-! ## The ledger -/

theorem GoMap.get?_set_ne {β : Type} (m : GoMap β) (k x : String) (v : β) (h : k ≠ x) :
    (GoMap.set m k v).get? x = GoMap.get? m x := by
  induction m with
  | nil => simp [GoMap.set, GoMap.get?, h]
  | cons kv rest ih =>
    obtain ⟨k', v'⟩ := kv
    by_cases hk : k' = k
    · subst hk
      simp [GoMap.set, GoMap.get?, h]
    · by_cases hx : k' = x
      · subst hx
        have hk2 : ¬ (k' = k) := hk
        simp [GoMap.set, GoMap.get?, hk2]
      · simp [GoMap.set, GoMap.get?, hk, hx, ih]

theorem GoMap.get?_eq_none_iff {β : Type} (m : GoMap β) (k : String) :
    GoMap.get? m k = none ↔ k ∉ GoMap.keys m := by
  induction m with
  | nil => simp [GoMap.get?, GoMap.keys]
  | cons kv rest ih =>
    obtain ⟨k', v'⟩ := kv
    have ih2 : GoMap.get? rest k = none ↔ k ∉ List.map Prod.fst rest := ih
    by_cases hk : k' = k
    · simp [GoMap.get?, GoMap.keys, hk]
    · have hk2 : ¬ (k = k') := fun h => hk h.symm
      simp [GoMap.get?, GoMap.keys, hk, hk2, ih2]

theorem GoMap.mem_set {β : Type} (m : GoMap β) (k : String) (v : β) (p : String × β)
    (h : p ∈ GoMap.set m k v) : p = (k, v) ∨ p ∈ m := by
  induction m with
  | nil =>
    simp [GoMap.set] at h
    exact Or.inl h
  | cons kv rest ih =>
    obtain ⟨k', v'⟩ := kv
    by_cases hk : k' = k
    · simp only [GoMap.set, hk, if_true, List.mem_cons] at h
      rcases h with h | h
      · exact Or.inl h
      · exact Or.inr (List.mem_cons_of_mem _ h)
    · simp only [GoMap.set, hk, if_false, List.mem_cons] at h
      rcases h with h | h
      · exact Or.inr (h ▸ List.mem_cons_self _ _)
      · rcases ih h with h2 | h2
        · exact Or.inl h2
        · exact Or.inr (List.mem_cons_of_mem _ h2)

/-- After lines 56-59 the entry of `name` exists and holds the quantity read. -/
theorem ledgerEntry_get?_self (m : GoMap Int) (name : String) :
    (ledgerEntry m name).1.get? name = some (ledgerEntry m name).2 := by
  unfold ledgerEntry
  cases h : GoMap.get? m name with
  | some a => simpa using h
  | none => simpa using GoMap.get?_set_self m name 0

/-- Lines 56-59 leave the entries of the other names alone. -/
theorem ledgerEntry_get?_ne (m : GoMap Int) (name x : String) (h : name ≠ x) :
    (ledgerEntry m name).1.get? x = GoMap.get? m x := by
  unfold ledgerEntry
  cases hn : GoMap.get? m name with
  | some a => rfl
  | none => simpa using GoMap.get?_set_ne m name x 0 h

/-- An existing entry is read, not rewritten. -/
theorem ledgerEntry_of_some (m : GoMap Int) (name : String) (v : Int)
    (h : GoMap.get? m name = some v) : ledgerEntry m name = (m, v) := by
  simp [ledgerEntry, h]

/-- A missing entry is created with value zero. -/
theorem ledgerEntry_of_none (m : GoMap Int) (name : String)
    (h : GoMap.get? m name = none) : ledgerEntry m name = (GoMap.set m name 0, 0) := by
  simp [ledgerEntry, h]

/-- Lines 56-59 keep every existing entry with its value. -/
theorem ledgerEntry_stable (m : GoMap Int) (name x : String) (v : Int)
    (h : GoMap.get? m x = some v) : (ledgerEntry m name).1.get? x = some v := by
  by_cases hx : name = x
  · subst hx
    rw [ledgerEntry_of_some m name v h]
    exact h
  · rw [ledgerEntry_get?_ne m name x hx]
    exact h

theorem ledgerEntry_keys (m : GoMap Int) (name x : String) :
    x ∈ GoMap.keys (ledgerEntry m name).1 ↔ x = name ∨ x ∈ GoMap.keys m := by
  cases h : GoMap.get? m name with
  | some a =>
    rw [ledgerEntry_of_some m name a h]
    constructor
    · exact Or.inr
    · rintro (hx | hx)
      · subst hx
        by_contra hnot
        rw [(GoMap.get?_eq_none_iff m x).2 hnot] at h
        cases h
      · exact hx
  | none =>
    rw [ledgerEntry_of_none m name h]
    exact GoMap.mem_keys_set m name 0 x

theorem ledgerEntry_zero (m : GoMap Int) (name : String) (h : ∀ p ∈ m, p.2 = 0) :
    ∀ p ∈ (ledgerEntry m name).1, p.2 = 0 := by
  intro p hp
  cases hn : GoMap.get? m name with
  | some a =>
    rw [ledgerEntry_of_some m name a hn] at hp
    exact h p hp
  | none =>
    rw [ledgerEntry_of_none m name hn] at hp
    rcases GoMap.mem_set m name 0 p hp with hp2 | hp2
    · rw [hp2]
    · exact h p hp2

/-- Every iteration, whatever its branch, leaves the ledger of lines 56-59. -/
theorem visit_ledger (now : Nat) (st : LoopState) (node : Node) :
    (visit now st node).ext.allocatedVFs = (ledgerEntry st.ext.allocatedVFs node.Name).1 := by
  rcases visit_cases now st node with ⟨_, hv⟩ | ⟨t, _, _, hv⟩ | ⟨t, _, _, hv⟩ <;> rw [hv]

theorem visitAll_ledger_stable (clock : Nat → Nat) (ns : List Node) :
    ∀ (i : Nat) (st : LoopState) (x : String) (v : Int),
      GoMap.get? st.ext.allocatedVFs x = some v →
      GoMap.get? (visitAll clock i ns st).ext.allocatedVFs x = some v := by
  induction ns with
  | nil =>
    intro i st x v h
    exact h
  | cons n rest ih =>
    intro i st x v h
    simp only [visitAll]
    apply ih
    rw [visit_ledger]
    exact ledgerEntry_stable _ _ _ _ h

theorem visitAll_ledger_init (clock : Nat → Nat) (ns : List Node) :
    ∀ (i : Nat) (st : LoopState) (node : Node), node ∈ ns →
      GoMap.get? st.ext.allocatedVFs node.Name = none →
      GoMap.get? (visitAll clock i ns st).ext.allocatedVFs node.Name = some 0 := by
  induction ns with
  | nil =>
    intro i st node hmem
    cases hmem
  | cons n rest ih =>
    intro i st node hmem hnone
    simp only [visitAll]
    by_cases hname : n.Name = node.Name
    · apply visitAll_ledger_stable
      rw [visit_ledger, hname, ledgerEntry_of_none _ _ hnone]
      exact GoMap.get?_set_self _ _ _
    · have hrest : node ∈ rest := by
        rcases List.mem_cons.1 hmem with h | h
        · exact absurd (h ▸ rfl) hname
        · exact h
      apply ih _ _ _ hrest
      rw [visit_ledger, ledgerEntry_get?_ne _ _ _ hname]
      exact hnone

theorem visitAll_ledger_keys (clock : Nat → Nat) (ns : List Node) :
    ∀ (i : Nat) (st : LoopState) (x : String),
      x ∈ GoMap.keys (visitAll clock i ns st).ext.allocatedVFs ↔
        x ∈ GoMap.keys st.ext.allocatedVFs ∨ ∃ n ∈ ns, n.Name = x := by
  induction ns with
  | nil =>
    intro i st x
    simp [visitAll]
  | cons n rest ih =>
    intro i st x
    simp only [visitAll]
    rw [ih, visit_ledger, ledgerEntry_keys]
    simp only [List.mem_cons, exists_eq_or_imp]
    constructor
    · rintro ((h | h) | h)
      · exact Or.inr (Or.inl h.symm)
      · exact Or.inl h
      · exact Or.inr (Or.inr h)
    · rintro (h | h | h)
      · exact Or.inl (Or.inr h)
      · exact Or.inl (Or.inl h.symm)
      · exact Or.inr h

theorem visitAll_ledger_zero (clock : Nat → Nat) (ns : List Node) :
    ∀ (i : Nat) (st : LoopState), (∀ p ∈ st.ext.allocatedVFs, p.2 = 0) →
      ∀ p ∈ (visitAll clock i ns st).ext.allocatedVFs, p.2 = 0 := by
  induction ns with
  | nil =>
    intro i st h
    exact h
  | cons n rest ih =>
    intro i st h
    simp only [visitAll]
    apply ih
    rw [visit_ledger]
    exact ledgerEntry_zero _ _ h

/-- A name without entry before the loop has none or a zero one after it. -/
theorem visitAll_ledger_fresh (clock : Nat → Nat) (ns : List Node) :
    ∀ (i : Nat) (st : LoopState) (x : String),
      GoMap.get? st.ext.allocatedVFs x = none →
      GoMap.get? (visitAll clock i ns st).ext.allocatedVFs x = none ∨
        GoMap.get? (visitAll clock i ns st).ext.allocatedVFs x = some 0 := by
  induction ns with
  | nil =>
    intro i st x h
    exact Or.inl h
  | cons n rest ih =>
    intro i st x h
    simp only [visitAll]
    by_cases hname : n.Name = x
    · right
      apply visitAll_ledger_stable
      rw [visit_ledger, hname, ledgerEntry_of_none _ _ h]
      exact GoMap.get?_set_self _ _ _
    · apply ih
      rw [visit_ledger, ledgerEntry_get?_ne _ _ _ hname]
      exact h

/-- The extender state a call on a selected pod leaves is the one the loop
leaves. -/
theorem FilterArgs_ext_of_selected (ext : Extender) (args : ExtenderArgs) (clock : Nat → Nat)
    (h : ext.selector args.Pod = true) :
    (FilterArgs ext args clock).ext =
      (visitAll clock 0 args.Nodes
        { ext := ext, result := { Nodes := [], FailedNodes := [], Error := "" } }).ext := by
  rw [FilterArgs_of_selected ext args clock h]

/-- A call never changes a ledger value from zero, selected pod or not. -/
theorem FilterArgs_ledger_zero (ext : Extender) (args : ExtenderArgs) (clock : Nat → Nat)
    (h : ∀ p ∈ ext.allocatedVFs, p.2 = 0) :
    ∀ p ∈ (FilterArgs ext args clock).ext.allocatedVFs, p.2 = 0 := by
  cases hsel : ext.selector args.Pod with
  | false => simpa [FilterArgs, hsel] using h
  | true =>
    rw [FilterArgs_ext_of_selected ext args clock hsel]
    exact visitAll_ledger_zero clock args.Nodes 0 _ h

theorem serve_ledger_zero (calls : List (ExtenderArgs × (Nat → Nat))) :
    ∀ ext : Extender, (∀ p ∈ ext.allocatedVFs, p.2 = 0) →
      ∀ p ∈ (serve ext calls).allocatedVFs, p.2 = 0 := by
  induction calls with
  | nil =>
    intro ext h
    exact h
  | cons c rest ih =>
    intro ext h
    obtain ⟨args, clock⟩ := c
    simp only [serve]
    exact ih _ (FilterArgs_ledger_zero ext args clock h)

theorem GoMap.mem_of_get? {β : Type} (m : GoMap β) (k : String) (v : β)
    (h : GoMap.get? m k = some v) : (k, v) ∈ m := by
  induction m with
  | nil => simp [GoMap.get?] at h
  | cons kv rest ih =>
    obtain ⟨k', v'⟩ := kv
    by_cases hk : k' = k
    · simp only [GoMap.get?, hk, if_true, Option.some.injEq] at h
      rw [hk, h]
      exact List.mem_cons_self _ _
    · simp only [GoMap.get?, hk, if_false] at h
      exact List.mem_cons_of_mem _ (ih h)

/-- In a ledger of zeros the quantity read for any name is zero. -/
theorem ledgerEntry_snd_zero (m : GoMap Int) (name : String) (h : ∀ p ∈ m, p.2 = 0) :
    (ledgerEntry m name).2 = 0 := by
  cases hn : GoMap.get? m name with
  | some a =>
    rw [ledgerEntry_of_some m name a hn]
    exact h (name, a) (GoMap.mem_of_get? m name a hn)
  | none => rw [ledgerEntry_of_none m name hn]

/-! ## The two output collections -/

/-- The loop only appends to the accepted list. -/
theorem visitAll_nodes_mono (clock : Nat → Nat) (ns : List Node) (i : Nat) (st : LoopState)
    (m : Node) (h : m ∈ st.result.Nodes) : m ∈ (visitAll clock i ns st).result.Nodes := by
  obtain ⟨added, accepted, _, _, h3, _⟩ := visitAll_account clock ns i st
  rw [h3]
  exact List.mem_append_left _ h

/-- The loop never removes a key of the rejected mapping. -/
theorem visitAll_failed_keys_mono (clock : Nat → Nat) (ns : List Node) :
    ∀ (i : Nat) (st : LoopState) (k : String), k ∈ GoMap.keys st.result.FailedNodes →
      k ∈ GoMap.keys (visitAll clock i ns st).result.FailedNodes := by
  induction ns with
  | nil =>
    intro i st k h
    exact h
  | cons n rest ih =>
    intro i st k h
    simp only [visitAll]
    apply ih
    rcases visit_cases (clock i) st n with ⟨_, hv⟩ | ⟨t, _, _, hv⟩ | ⟨t, _, _, hv⟩
    · rw [hv]
      exact h
    · rw [hv]
      exact h
    · rw [hv]
      exact (GoMap.mem_keys_set _ _ _ _).2 (Or.inr h)

/-- Every candidate with a capacity gets a verdict. -/
theorem visitAll_verdict (clock : Nat → Nat) (ns : List Node) :
    ∀ (i : Nat) (st : LoopState), ∀ n ∈ ns, n.Allocatable.get? TotalVFsResource ≠ none →
      n ∈ (visitAll clock i ns st).result.Nodes ∨
        n.Name ∈ GoMap.keys (visitAll clock i ns st).result.FailedNodes := by
  induction ns with
  | nil =>
    intro i st n hn
    cases hn
  | cons h rest ih =>
    intro i st n hn hcap
    simp only [visitAll]
    rcases List.mem_cons.1 hn with heq | hrest
    · subst heq
      rcases visit_cases (clock i) st n with ⟨hc, _⟩ | ⟨t, _, _, hv⟩ | ⟨t, _, _, hv⟩
      · exact absurd hc hcap
      · left
        apply visitAll_nodes_mono
        rw [hv]
        simp
      · right
        apply visitAll_failed_keys_mono
        rw [hv]
        exact (GoMap.mem_keys_set _ _ _ _).2 (Or.inl rfl)
    · exact ih (i + 1) _ n hrest hcap

/-- With pairwise distinct candidate names no accepted node has its name among
the keys of the rejected mapping. -/
theorem visitAll_exclusive (clock : Nat → Nat) (ns : List Node) :
    ∀ (i : Nat) (st : LoopState), (ns.map (fun n => n.Name)).Nodup →
      (∀ m ∈ st.result.Nodes, m.Name ∉ GoMap.keys st.result.FailedNodes) →
      (∀ m ∈ st.result.Nodes, ∀ n ∈ ns, m.Name ≠ n.Name) →
      (∀ k ∈ GoMap.keys st.result.FailedNodes, ∀ n ∈ ns, k ≠ n.Name) →
      ∀ m ∈ (visitAll clock i ns st).result.Nodes,
        m.Name ∉ GoMap.keys (visitAll clock i ns st).result.FailedNodes := by
  induction ns with
  | nil =>
    intro i st _ h1 _ _
    exact h1
  | cons h rest ih =>
    intro i st hnd h1 h2 h3
    simp only [visitAll]
    rw [List.map_cons, List.nodup_cons] at hnd
    obtain ⟨hfresh, hnd2⟩ := hnd
    have hfresh2 : ∀ n ∈ rest, h.Name ≠ n.Name := by
      intro n hn heq
      exact hfresh (List.mem_map.2 ⟨n, hn, heq.symm⟩)
    apply ih (i + 1) _ hnd2
    · rcases visit_cases (clock i) st h with ⟨_, hv⟩ | ⟨t, _, _, hv⟩ | ⟨t, _, _, hv⟩
      · rw [hv]
        exact h1
      · rw [hv]
        intro m hm
        rcases List.mem_append.1 hm with hm | hm
        · exact h1 m hm
        · have hmh : m = h := by simpa using hm
          rw [hmh]
          intro hk
          exact h3 h.Name hk h (List.mem_cons_self _ _) rfl
      · rw [hv]
        intro m hm hk
        rcases (GoMap.mem_keys_set _ _ _ _).1 hk with hk | hk
        · exact h2 m hm h (List.mem_cons_self _ _) hk
        · exact h1 m hm hk
    · rcases visit_cases (clock i) st h with ⟨_, hv⟩ | ⟨t, _, _, hv⟩ | ⟨t, _, _, hv⟩
      · rw [hv]
        intro m hm n hn
        exact h2 m hm n (List.mem_cons_of_mem _ hn)
      · rw [hv]
        intro m hm n hn
        rcases List.mem_append.1 hm with hm | hm
        · exact h2 m hm n (List.mem_cons_of_mem _ hn)
        · have hmh : m = h := by simpa using hm
          rw [hmh]
          exact hfresh2 n hn
      · rw [hv]
        intro m hm n hn
        exact h2 m hm n (List.mem_cons_of_mem _ hn)
    · rcases visit_cases (clock i) st h with ⟨_, hv⟩ | ⟨t, _, _, hv⟩ | ⟨t, _, _, hv⟩
      · rw [hv]
        intro k hk n hn
        exact h3 k hk n (List.mem_cons_of_mem _ hn)
      · rw [hv]
        intro k hk n hn
        exact h3 k hk n (List.mem_cons_of_mem _ hn)
      · rw [hv]
        intro k hk n hn
        rcases (GoMap.mem_keys_set _ _ _ _).1 hk with hk | hk
        · rw [hk]
          exact hfresh2 n hn
        · exact h3 k hk n (List.mem_cons_of_mem _ hn)

/-- Where a stored rejection message comes from: the iteration on a candidate
of that name, in the state the loop had reached before it. -/
theorem visitAll_failed_origin (clock : Nat → Nat) (ns : List Node) :
    ∀ (i : Nat) (st : LoopState) (k : String) (msg : FailMsg),
      GoMap.get? (visitAll clock i ns st).result.FailedNodes k = some msg →
      GoMap.get? st.result.FailedNodes k = some msg ∨
      ∃ (pre : List Node) (n : Node) (post : List Node) (total : Int),
        ns = pre ++ n :: post ∧ n.Name = k ∧
        n.Allocatable.get? TotalVFsResource = some total ∧
        0 < free (visitAll clock i pre st).ext n total ∧
        msg = { Allocated := (ledgerEntry (visitAll clock i pre st).ext.allocatedVFs n.Name).2
                Promised := (visitAll clock i pre st).ext.promisedVFs
                Total := free (visitAll clock i pre st).ext n total } := by
  induction ns with
  | nil =>
    intro i st k msg h
    exact Or.inl h
  | cons h rest ih =>
    intro i st k msg hget
    simp only [visitAll] at hget
    rcases ih (i + 1) _ k msg hget with hleft | ⟨pre, n, post, total, hsplit, hname, hcap, hpos, hmsg⟩
    · rcases visit_cases (clock i) st h with ⟨_, hv⟩ | ⟨t, _, _, hv⟩ | ⟨t, hc, hf, hv⟩
      · rw [hv] at hleft
        exact Or.inl hleft
      · rw [hv] at hleft
        exact Or.inl hleft
      · rw [hv] at hleft
        by_cases hk : h.Name = k
        · right
          refine ⟨[], h, rest, t, rfl, hk, hc, hf, ?_⟩
          simp only at hleft
          rw [← hk, GoMap.get?_set_self] at hleft
          exact (Option.some.inj hleft).symm
        · left
          simp only at hleft
          rw [GoMap.get?_set_ne _ _ _ _ hk] at hleft
          exact hleft
    · right
      refine ⟨h :: pre, n, post, total, ?_, hname, hcap, hpos, hmsg⟩
      rw [hsplit]
      rfl

/-- The result of a call on a selected pod carries the two collections the
loop built. -/
theorem FilterArgs_result_of_selected (ext : Extender) (args : ExtenderArgs)
    (clock : Nat → Nat) (h : ext.selector args.Pod = true) :
    ∃ r : ExtenderFilterResult,
      (FilterArgs ext args clock).result = some r ∧
      r.Nodes = (visitAll clock 0 args.Nodes
        { ext := ext, result := { Nodes := [], FailedNodes := [], Error := "" } }).result.Nodes ∧
      r.FailedNodes = (visitAll clock 0 args.Nodes
        { ext := ext, result := { Nodes := [], FailedNodes := [], Error := "" } }).result.FailedNodes := by
  rw [FilterArgs_of_selected ext args clock h]
  refine ⟨_, rfl, ?_, ?_⟩
  · split_ifs <;> rfl
  · split_ifs <;> rfl

/-! ## The claims -/

/-- C1. The state built by `NewExtender` has promised count 0 and an empty
promise log, so the count equals the length of the log; and whenever the count
equals the length of the log before a call of `FilterArgs`, it does so after
the call, for every request. -/
theorem C1_promise_invariant :
    (∀ sel : Selector,
      (NewExtender sel).promisedVFs = 0 ∧ (NewExtender sel).promises.length = 0 ∧
        PromiseInv (NewExtender sel)) ∧
    (∀ (ext : Extender) (args : ExtenderArgs) (clock : Nat → Nat),
      PromiseInv ext → PromiseInv (FilterArgs ext args clock).ext) := by
  refine ⟨fun sel => ⟨rfl, rfl, rfl⟩, ?_⟩
  intro ext args clock hinv
  unfold PromiseInv at hinv ⊢
  cases hsel : ext.selector args.Pod with
  | false => simpa [FilterArgs, hsel] using hinv
  | true =>
    obtain ⟨r, added, _, h1, h2, _⟩ := FilterArgs_account ext args clock hsel
    rw [h1, h2, hinv]
    simp

/-- C1, at a state with one promise and a request that adds another. -/
theorem C1_promise_invariant_witness :
    PromiseInv onePromise ∧
    PromiseInv (FilterArgs onePromise
      { Pod := sriovPod, Nodes := [nodeWith "node-1" 1] } tick).ext :=
  ⟨rfl, C1_promise_invariant.2 onePromise
    { Pod := sriovPod, Nodes := [nodeWith "node-1" 1] } tick rfl⟩

/-- C2, evaluated: on a fresh extender a single node that advertises capacity
1 has free = 1 - 0 - 0 = 1 > 0, and `FilterArgs` rejects it: the accepted list
is empty, the node is in `FailedNodes`, no promise is recorded. -/
theorem C2_fresh_single_node_rejected :
    free (NewExtender sriovSelector) (nodeWith "node-1" 1) 1 = 1 ∧
    (FilterArgs (NewExtender sriovSelector)
      { Pod := sriovPod, Nodes := [nodeWith "node-1" 1] } tick).result =
      some { Nodes := []
             FailedNodes := [("node-1", { Allocated := 0, Promised := 0, Total := 1 })]
             Error := "No nodes have available VFs." } ∧
    (FilterArgs (NewExtender sriovSelector)
      { Pod := sriovPod, Nodes := [nodeWith "node-1" 1] } tick).ext.promisedVFs = 0 ∧
    (FilterArgs (NewExtender sriovSelector)
      { Pod := sriovPod, Nodes := [nodeWith "node-1" 1] } tick).ext.promises = [] := by
  decide

/-- C3. When the selector rejects the pod, `FilterArgs` returns a nil result
and leaves the extender as it was: the ledger, the promise log and the promised
count are unchanged, whatever the candidate list holds. -/
theorem C3_not_applicable (ext : Extender) (args : ExtenderArgs) (clock : Nat → Nat)
    (h : ext.selector args.Pod = false) :
    (FilterArgs ext args clock).result = none ∧
    (FilterArgs ext args clock).ext = ext ∧
    (FilterArgs ext args clock).ext.allocatedVFs = ext.allocatedVFs ∧
    (FilterArgs ext args clock).ext.promises = ext.promises ∧
    (FilterArgs ext args clock).ext.promisedVFs = ext.promisedVFs := by
  simp [FilterArgs, h]

/-- C3, at a pod without the annotation and a node with free capacity. -/
theorem C3_not_applicable_witness :
    onePromise.selector plainPod = false ∧
    (FilterArgs onePromise { Pod := plainPod, Nodes := [nodeWith "node-2" 5] } tick).result
      = none ∧
    (FilterArgs onePromise { Pod := plainPod, Nodes := [nodeWith "node-2" 5] } tick).ext
      = onePromise :=
  ⟨by decide,
   (C3_not_applicable onePromise { Pod := plainPod, Nodes := [nodeWith "node-2" 5] } tick
      (by decide)).1,
   (C3_not_applicable onePromise { Pod := plainPod, Nodes := [nodeWith "node-2" 5] } tick
      (by decide)).2.1⟩

/-- C4, evaluated: every candidate advertises capacity 0, so the bound is
C = 0, and yet the promised count is 1 after one call from the fresh state and
2 after two; the node is accepted although promised + allocated = 0 has reached
its advertised total 0. -/
theorem C4_promises_exceed_capacity :
    (nodeWith "node-1" 0).Allocatable.get? TotalVFsResource = some 0 ∧
    (serve (NewExtender sriovSelector)
      [({ Pod := sriovPod, Nodes := [nodeWith "node-1" 0] }, tick)]).promisedVFs = 1 ∧
    (serve (NewExtender sriovSelector)
      [({ Pod := sriovPod, Nodes := [nodeWith "node-1" 0] }, tick),
       ({ Pod := sriovPod, Nodes := [nodeWith "node-1" 0] }, tick)]).promisedVFs = 2 ∧
    (FilterArgs (NewExtender sriovSelector)
      { Pod := sriovPod, Nodes := [nodeWith "node-1" 0] } tick).result =
      some { Nodes := [nodeWith "node-1" 0], FailedNodes := [], Error := "" } := by
  decide

/-- C5. For a pod the selector accepts, the promised count after `FilterArgs`
is the count before plus the number of nodes in the returned accepted list, and
the promise log is the log before followed by exactly that many new entries. -/
theorem C5_per_node_charging (ext : Extender) (args : ExtenderArgs) (clock : Nat → Nat)
    (h : ext.selector args.Pod = true) :
    ∃ (r : ExtenderFilterResult) (added : List Nat),
      (FilterArgs ext args clock).result = some r ∧
      (FilterArgs ext args clock).ext.promisedVFs = ext.promisedVFs + (r.Nodes.length : Int) ∧
      (FilterArgs ext args clock).ext.promises = ext.promises ++ added ∧
      added.length = r.Nodes.length := by
  obtain ⟨r, added, h0, h1, h2, h3, _⟩ := FilterArgs_account ext args clock h
  exact ⟨r, added, h0, by rw [h2, h3], h1, h3.symm⟩

/-- C5, at a request with one accepted, one rejected and one skipped node. -/
theorem C5_per_node_charging_witness :
    onePromise.selector sriovPod = true ∧
    ∃ (r : ExtenderFilterResult) (added : List Nat),
      (FilterArgs onePromise
        { Pod := sriovPod
          Nodes := [nodeWith "node-1" 1, nodeWith "node-2" 9, bareNode "node-3"] } tick).result
        = some r ∧
      (FilterArgs onePromise
        { Pod := sriovPod
          Nodes := [nodeWith "node-1" 1, nodeWith "node-2" 9, bareNode "node-3"] } tick).ext.promisedVFs
        = onePromise.promisedVFs + (r.Nodes.length : Int) ∧
      (FilterArgs onePromise
        { Pod := sriovPod
          Nodes := [nodeWith "node-1" 1, nodeWith "node-2" 9, bareNode "node-3"] } tick).ext.promises
        = onePromise.promises ++ added ∧
      added.length = r.Nodes.length :=
  ⟨by decide, C5_per_node_charging onePromise
    { Pod := sriovPod
      Nodes := [nodeWith "node-1" 1, nodeWith "node-2" 9, bareNode "node-3"] } tick (by decide)⟩

/-- C6. For a pod the selector accepts, the `Error` string of the returned
result is non-empty exactly when the returned accepted list is empty, and it is
then the text "No nodes have available VFs."; an empty candidate list and a
list of nodes that are all skipped are such cases. -/
theorem C6_advisory_message (ext : Extender) (args : ExtenderArgs) (clock : Nat → Nat)
    (h : ext.selector args.Pod = true) :
    ∃ r : ExtenderFilterResult,
      (FilterArgs ext args clock).result = some r ∧
      (r.Error ≠ "" ↔ r.Nodes = []) ∧
      (r.Nodes = [] → r.Error = "No nodes have available VFs.") ∧
      (args.Nodes = [] → r.Nodes = []) ∧
      ((∀ n ∈ args.Nodes, n.Allocatable.get? TotalVFsResource = none) → r.Nodes = []) := by
  obtain ⟨r, added, h0, _, _, _, hsub, hcap, _, herr⟩ := FilterArgs_account ext args clock h
  refine ⟨r, h0, ?_, ?_, ?_, ?_⟩
  · rw [herr]
    by_cases hz : r.Nodes = []
    · simp [hz, noNodesError]
    · have hlen : r.Nodes.length ≠ 0 := fun hl => hz (List.length_eq_zero.1 hl)
      simp [hz, hlen]
  · intro hz
    rw [herr]
    simp [hz, noNodesError]
  · intro hnil
    rw [hnil] at hsub
    exact List.sublist_nil.1 hsub
  · intro hall
    cases hr : r.Nodes with
    | nil => rfl
    | cons m rest =>
      have hm : m ∈ r.Nodes := by
        rw [hr]
        exact List.mem_cons_self _ _
      exact absurd (hall m (hsub.subset hm)) (hcap m hm)

/-- C6, at a request whose only candidate is rejected. -/
theorem C6_advisory_message_witness :
    (NewExtender sriovSelector).selector sriovPod = true ∧
    ∃ r : ExtenderFilterResult,
      (FilterArgs (NewExtender sriovSelector)
        { Pod := sriovPod, Nodes := [nodeWith "node-1" 1] } tick).result = some r ∧
      (r.Error ≠ "" ↔ r.Nodes = []) ∧
      (r.Nodes = [] → r.Error = "No nodes have available VFs.") ∧
      (([nodeWith "node-1" 1] : List Node) = [] → r.Nodes = []) ∧
      ((∀ n ∈ [nodeWith "node-1" 1], n.Allocatable.get? TotalVFsResource = none) →
        r.Nodes = []) :=
  ⟨by decide, C6_advisory_message (NewExtender sriovSelector)
    { Pod := sriovPod, Nodes := [nodeWith "node-1" 1] } tick (by decide)⟩

/-- C7. For a pod the selector accepts, a candidate node without a `totalvfs`
entry, whose name no other candidate shares, is not in the accepted list (nor
is any node of its name), its name is not a key of `FailedNodes`, and the
iteration that evaluates it records no promise: it leaves the promise log, the
promised count and the result under construction as they were. -/
theorem C7_skip_without_capacity (ext : Extender) (args : ExtenderArgs) (clock : Nat → Nat)
    (node : Node)
    (hsel : ext.selector args.Pod = true)
    (hmem : node ∈ args.Nodes)
    (hcap : node.Allocatable.get? TotalVFsResource = none)
    (hname : ∀ m ∈ args.Nodes, m.Name = node.Name → m = node) :
    (∃ r : ExtenderFilterResult,
      (FilterArgs ext args clock).result = some r ∧
      node ∉ r.Nodes ∧
      (∀ m ∈ r.Nodes, m.Name ≠ node.Name) ∧
      node.Name ∉ GoMap.keys r.FailedNodes) ∧
    (∀ (now : Nat) (st : LoopState),
      (visit now st node).result = st.result ∧
      (visit now st node).ext.promises = st.ext.promises ∧
      (visit now st node).ext.promisedVFs = st.ext.promisedVFs) := by
  constructor
  · obtain ⟨r, added, h0, _, _, _, hsub, hc, hk, _⟩ := FilterArgs_account ext args clock hsel
    refine ⟨r, h0, ?_, ?_, ?_⟩
    · intro hin
      exact hc node hin hcap
    · intro m hm hnm
      have hmn : m = node := hname m (hsub.subset hm) hnm
      exact hc m hm (hmn ▸ hcap)
    · intro hin
      obtain ⟨m, hm, hnm, hmc⟩ := hk node.Name hin
      have hmn : m = node := hname m hm hnm
      exact hmc (hmn ▸ hcap)
  · intro now st
    rcases visit_cases now st node with ⟨_, hv⟩ | ⟨t, hc, _, _⟩ | ⟨t, hc, _, _⟩
    · rw [hv]
      exact ⟨rfl, rfl, rfl⟩
    · rw [hcap] at hc
      cases hc
    · rw [hcap] at hc
      cases hc

/-- C7, at a request with a skipped node between two nodes with capacity. -/
theorem C7_skip_without_capacity_witness :
    onePromise.selector sriovPod = true ∧
    bareNode "node-3" ∈ [nodeWith "node-1" 1, bareNode "node-3", nodeWith "node-2" 9] ∧
    (bareNode "node-3").Allocatable.get? TotalVFsResource = none ∧
    ((∃ r : ExtenderFilterResult,
      (FilterArgs onePromise
        { Pod := sriovPod
          Nodes := [nodeWith "node-1" 1, bareNode "node-3", nodeWith "node-2" 9] } tick).result
        = some r ∧
      bareNode "node-3" ∉ r.Nodes ∧
      (∀ m ∈ r.Nodes, m.Name ≠ (bareNode "node-3").Name) ∧
      (bareNode "node-3").Name ∉ GoMap.keys r.FailedNodes) ∧
    (∀ (now : Nat) (st : LoopState),
      (visit now st (bareNode "node-3")).result = st.result ∧
      (visit now st (bareNode "node-3")).ext.promises = st.ext.promises ∧
      (visit now st (bareNode "node-3")).ext.promisedVFs = st.ext.promisedVFs)) :=
  ⟨by decide, by decide, by decide,
   C7_skip_without_capacity onePromise
    { Pod := sriovPod
      Nodes := [nodeWith "node-1" 1, bareNode "node-3", nodeWith "node-2" 9] } tick
    (bareNode "node-3") (by decide) (by decide) (by decide) (by decide)⟩

/-- C8. `FilterArgs` returns a nil error on every state and request; its result
is nil exactly when the selector rejects the pod; and a returned result with an
empty accepted list is non-nil and carries the advisory message, so "not
applicable" and "rejected by all nodes" are told apart. -/
theorem C8_no_hard_failure (ext : Extender) (args : ExtenderArgs) (clock : Nat → Nat) :
    (FilterArgs ext args clock).err = none ∧
    ((FilterArgs ext args clock).result = none ↔ ext.selector args.Pod = false) ∧
    (∀ r : ExtenderFilterResult, (FilterArgs ext args clock).result = some r →
      r.Nodes = [] → r.Error = "No nodes have available VFs." ∧ r.Error ≠ "") := by
  cases hsel : ext.selector args.Pod with
  | false => simp [FilterArgs, hsel]
  | true =>
    obtain ⟨r, added, h0, _, _, _, _, _, _, herr⟩ := FilterArgs_account ext args clock hsel
    refine ⟨by simp [FilterArgs, hsel], by simp [h0], ?_⟩
    intro r2 hr2 hnil
    rw [h0] at hr2
    cases hr2
    rw [herr]
    simp [hnil, noNodesError]

/-- C9, evaluated: with allocated 0 and promised count 1, a request with the
single node `node-1` of capacity 1 has free = 1 - 0 - 1 = 0, and `FilterArgs`
accepts the node: the accepted list holds it, `FailedNodes` is empty, no
advisory message is set and the promised count becomes 2. -/
theorem C9_repeat_query_accepted :
    onePromise.selector sriovPod = true ∧
    onePromise.allocatedVFs.get? "node-1" = some 0 ∧
    onePromise.promisedVFs = 1 ∧
    free onePromise (nodeWith "node-1" 1) 1 = 0 ∧
    (FilterArgs onePromise { Pod := sriovPod, Nodes := [nodeWith "node-1" 1] } tick).result =
      some { Nodes := [nodeWith "node-1" 1], FailedNodes := [], Error := "" } ∧
    (FilterArgs onePromise
      { Pod := sriovPod, Nodes := [nodeWith "node-1" 1] } tick).ext.promisedVFs = 2 ∧
    (FilterArgs onePromise
      { Pod := sriovPod, Nodes := [nodeWith "node-1" 1] } tick).ext.promises = [7, 0] := by
  decide

/-- C10, evaluated: on a fresh extender, a call with the two nodes `node-1` and
`node-2`, each of capacity 1, finds free = 1 - 0 - 0 = 1 for both and rejects
both: it returns an empty accepted list, both names in `FailedNodes` and the
advisory message, and leaves the promised count at 0 and the promise log
empty. -/
theorem C10_two_nodes_rejected :
    (NewExtender sriovSelector).selector sriovPod = true ∧
    free (NewExtender sriovSelector) (nodeWith "node-1" 1) 1 = 1 ∧
    free (NewExtender sriovSelector) (nodeWith "node-2" 1) 1 = 1 ∧
    (FilterArgs (NewExtender sriovSelector)
      { Pod := sriovPod, Nodes := [nodeWith "node-1" 1, nodeWith "node-2" 1] } tick).result =
      some { Nodes := []
             FailedNodes := [("node-1", { Allocated := 0, Promised := 0, Total := 1 }),
                             ("node-2", { Allocated := 0, Promised := 0, Total := 1 })]
             Error := "No nodes have available VFs." } ∧
    (FilterArgs (NewExtender sriovSelector)
      { Pod := sriovPod, Nodes := [nodeWith "node-1" 1, nodeWith "node-2" 1] } tick).result ≠
      some { Nodes := [nodeWith "node-1" 1, nodeWith "node-2" 1], FailedNodes := [], Error := "" } ∧
    (FilterArgs (NewExtender sriovSelector)
      { Pod := sriovPod, Nodes := [nodeWith "node-1" 1, nodeWith "node-2" 1] }
      tick).ext.promisedVFs = 0 ∧
    (FilterArgs (NewExtender sriovSelector)
      { Pod := sriovPod, Nodes := [nodeWith "node-1" 1, nodeWith "node-2" 1] }
      tick).ext.promises = [] := by
  decide

/-- C11, evaluated: from a fresh extender, with n = 2 nodes of one VF each and
k = 3 successive requests of pods that need a VF over that node list, none of
the three requests receives a non-empty accepted list (the claim and the test
say two of them do); all three get the advisory message and no promise is
ever recorded. -/
theorem C11_no_request_admitted :
    (NewExtender sriovSelector).selector testRequest.Pod = true ∧
    (serveResults (NewExtender sriovSelector)
      [(testRequest, tick), (testRequest, tick), (testRequest, tick)]).map admitted
      = [false, false, false] ∧
    (serveResults (NewExtender sriovSelector)
      [(testRequest, tick), (testRequest, tick), (testRequest, tick)]).map
        (fun r => r.map (fun x => (x.Nodes, x.Error)))
      = [some ([], "No nodes have available VFs."),
         some ([], "No nodes have available VFs."),
         some ([], "No nodes have available VFs.")] ∧
    ((serveResults (NewExtender sriovSelector)
      [(testRequest, tick), (testRequest, tick), (testRequest, tick)]).filter
        (fun r => admitted r)).length = 0 ∧
    (serve (NewExtender sriovSelector)
      [(testRequest, tick), (testRequest, tick), (testRequest, tick)]).promisedVFs = 0 := by
  decide

/-- C12. For a pod the selector accepts, after `FilterArgs` (a) every candidate
node name without a ledger entry before the call has an entry with value zero,
(b) every entry that existed before the call exists with the same value, and so
the allocated quantity read for any name is the same after the call as before. -/
theorem C12_ledger_lazy_init (ext : Extender) (args : ExtenderArgs) (clock : Nat → Nat)
    (h : ext.selector args.Pod = true) :
    (∀ n ∈ args.Nodes, GoMap.get? ext.allocatedVFs n.Name = none →
      GoMap.get? (FilterArgs ext args clock).ext.allocatedVFs n.Name = some 0) ∧
    (∀ (x : String) (v : Int), GoMap.get? ext.allocatedVFs x = some v →
      GoMap.get? (FilterArgs ext args clock).ext.allocatedVFs x = some v) ∧
    (∀ x : String,
      (ledgerEntry (FilterArgs ext args clock).ext.allocatedVFs x).2
        = (ledgerEntry ext.allocatedVFs x).2) := by
  rw [FilterArgs_ext_of_selected ext args clock h]
  refine ⟨?_, ?_, ?_⟩
  · intro n hn hnone
    exact visitAll_ledger_init clock args.Nodes 0 _ n hn hnone
  · intro x v hx
    exact visitAll_ledger_stable clock args.Nodes 0 _ x v hx
  · intro x
    cases hx : GoMap.get? ext.allocatedVFs x with
    | some v =>
      rw [ledgerEntry_of_some _ x v hx,
        ledgerEntry_of_some _ x v (visitAll_ledger_stable clock args.Nodes 0 _ x v hx)]
    | none =>
      rw [ledgerEntry_of_none _ x hx]
      rcases visitAll_ledger_fresh clock args.Nodes 0
          { ext := ext, result := { Nodes := [], FailedNodes := [], Error := "" } } x hx
        with hf | hf
      · rw [ledgerEntry_of_none _ x hf]
      · rw [ledgerEntry_of_some _ x 0 hf]

/-- C12, at a ledger with a non-zero entry and a request with a new node. -/
theorem C12_ledger_lazy_init_witness :
    busyLedger.selector sriovPod = true ∧
    GoMap.get? busyLedger.allocatedVFs "node-2" = none ∧
    GoMap.get? busyLedger.allocatedVFs "node-1" = some 3 ∧
    GoMap.get? (FilterArgs busyLedger
      { Pod := sriovPod, Nodes := [nodeWith "node-1" 1, bareNode "node-2"] } tick).ext.allocatedVFs
      "node-2" = some 0 ∧
    GoMap.get? (FilterArgs busyLedger
      { Pod := sriovPod, Nodes := [nodeWith "node-1" 1, bareNode "node-2"] } tick).ext.allocatedVFs
      "node-1" = some 3 :=
  ⟨by decide, by decide, by decide,
   (C12_ledger_lazy_init busyLedger
      { Pod := sriovPod, Nodes := [nodeWith "node-1" 1, bareNode "node-2"] } tick
      (by decide)).1 (bareNode "node-2") (by decide) (by decide),
   (C12_ledger_lazy_init busyLedger
      { Pod := sriovPod, Nodes := [nodeWith "node-1" 1, bareNode "node-2"] } tick
      (by decide)).2.1 "node-1" 3 (by decide)⟩

/-- C13. For a pod the selector accepts, the accepted list `FilterArgs` returns
is a subsequence of the candidate list in the order of the caller: no accepted
node is invented and none occurs more often than among the candidates. -/
theorem C13_order_preserved (ext : Extender) (args : ExtenderArgs) (clock : Nat → Nat)
    (h : ext.selector args.Pod = true) :
    ∃ r : ExtenderFilterResult,
      (FilterArgs ext args clock).result = some r ∧
      r.Nodes.Sublist args.Nodes ∧
      (∀ n ∈ r.Nodes, n ∈ args.Nodes) ∧
      (∀ n : Node, r.Nodes.count n ≤ args.Nodes.count n) := by
  obtain ⟨r, added, h0, _, _, _, hsub, _⟩ := FilterArgs_account ext args clock h
  exact ⟨r, h0, hsub, fun n hn => hsub.subset hn, fun n => hsub.count_le n⟩

/-- C13, at a request of which the first and the last candidate are accepted. -/
theorem C13_order_preserved_witness :
    onePromise.selector sriovPod = true ∧
    ∃ r : ExtenderFilterResult,
      (FilterArgs onePromise
        { Pod := sriovPod
          Nodes := [nodeWith "node-1" 1, nodeWith "node-2" 9, nodeWith "node-3" 2] }
        tick).result = some r ∧
      r.Nodes.Sublist [nodeWith "node-1" 1, nodeWith "node-2" 9, nodeWith "node-3" 2] ∧
      (∀ n ∈ r.Nodes, n ∈ [nodeWith "node-1" 1, nodeWith "node-2" 9, nodeWith "node-3" 2]) ∧
      (∀ n : Node, r.Nodes.count n ≤
        [nodeWith "node-1" 1, nodeWith "node-2" 9, nodeWith "node-3" 2].count n) :=
  ⟨by decide, C13_order_preserved onePromise
    { Pod := sriovPod
      Nodes := [nodeWith "node-1" 1, nodeWith "node-2" 9, nodeWith "node-3" 2] }
    tick (by decide)⟩

/-- C15. For a pod the selector accepts and candidates of pairwise distinct
names, each candidate that advertises a `totalvfs` capacity is in the accepted
list or has its name as a key of `FailedNodes`, and not both; every accepted
node and every key of `FailedNodes` comes from such a candidate. -/
theorem C15_verdict_partition (ext : Extender) (args : ExtenderArgs) (clock : Nat → Nat)
    (hsel : ext.selector args.Pod = true)
    (hdistinct : (args.Nodes.map (fun n => n.Name)).Nodup) :
    ∃ r : ExtenderFilterResult,
      (FilterArgs ext args clock).result = some r ∧
      (∀ n ∈ args.Nodes, n.Allocatable.get? TotalVFsResource ≠ none →
        (n ∈ r.Nodes ∨ n.Name ∈ GoMap.keys r.FailedNodes) ∧
        ¬ (n ∈ r.Nodes ∧ n.Name ∈ GoMap.keys r.FailedNodes)) ∧
      (∀ m ∈ r.Nodes, m ∈ args.Nodes ∧ m.Allocatable.get? TotalVFsResource ≠ none) ∧
      (∀ k ∈ GoMap.keys r.FailedNodes,
        ∃ m ∈ args.Nodes, m.Name = k ∧ m.Allocatable.get? TotalVFsResource ≠ none) := by
  obtain ⟨r, hr, hnodes, hfailed⟩ := FilterArgs_result_of_selected ext args clock hsel
  obtain ⟨r2, added, hr2, _, _, _, hsub, hcap, hkeys, _⟩ := FilterArgs_account ext args clock hsel
  have hrr : r2 = r := Option.some.inj (hr2.symm.trans hr)
  subst hrr
  refine ⟨r2, hr, ?_, ?_, hkeys⟩
  · intro n hn hc
    rw [hnodes, hfailed]
    refine ⟨visitAll_verdict clock args.Nodes 0 _ n hn hc, ?_⟩
    rintro ⟨h1, h2⟩
    exact visitAll_exclusive clock args.Nodes 0
      { ext := ext, result := { Nodes := [], FailedNodes := [], Error := "" } } hdistinct
      (by simp) (by simp) (by simp [GoMap.keys]) n h1 h2
  · intro m hm
    exact ⟨hsub.subset hm, hcap m hm⟩

/-- C15, at a request with an accepted, a rejected and a skipped candidate. -/
theorem C15_verdict_partition_witness :
    onePromise.selector sriovPod = true ∧
    ([nodeWith "node-1" 1, nodeWith "node-2" 9, bareNode "node-3"].map
      (fun n => n.Name)).Nodup ∧
    ∃ r : ExtenderFilterResult,
      (FilterArgs onePromise
        { Pod := sriovPod
          Nodes := [nodeWith "node-1" 1, nodeWith "node-2" 9, bareNode "node-3"] }
        tick).result = some r ∧
      (∀ n ∈ [nodeWith "node-1" 1, nodeWith "node-2" 9, bareNode "node-3"],
        n.Allocatable.get? TotalVFsResource ≠ none →
        (n ∈ r.Nodes ∨ n.Name ∈ GoMap.keys r.FailedNodes) ∧
        ¬ (n ∈ r.Nodes ∧ n.Name ∈ GoMap.keys r.FailedNodes)) ∧
      (∀ m ∈ r.Nodes,
        m ∈ [nodeWith "node-1" 1, nodeWith "node-2" 9, bareNode "node-3"] ∧
        m.Allocatable.get? TotalVFsResource ≠ none) ∧
      (∀ k ∈ GoMap.keys r.FailedNodes,
        ∃ m ∈ [nodeWith "node-1" 1, nodeWith "node-2" 9, bareNode "node-3"],
          m.Name = k ∧ m.Allocatable.get? TotalVFsResource ≠ none) :=
  ⟨by decide, by decide, C15_verdict_partition onePromise
    { Pod := sriovPod
      Nodes := [nodeWith "node-1" 1, nodeWith "node-2" 9, bareNode "node-3"] }
    tick (by decide) (by decide)⟩

/-- The operands of a stored rejection message. For a pod the selector
accepts, every entry of `FailedNodes` was written by the iteration on a
candidate of that name, and its three operands are the allocated quantity the
ledger holds for the node, the global promised count at the moment of that
iteration, and the remaining capacity advertised total - allocated - promised,
the value that iteration compared against zero. -/
theorem failed_message_operands (ext : Extender) (args : ExtenderArgs) (clock : Nat → Nat)
    (hsel : ext.selector args.Pod = true) :
    ∃ r : ExtenderFilterResult,
      (FilterArgs ext args clock).result = some r ∧
      ∀ (k : String) (msg : FailMsg), GoMap.get? r.FailedNodes k = some msg →
        ∃ (pre : List Node) (n : Node) (post : List Node) (total : Int),
          args.Nodes = pre ++ n :: post ∧ n.Name = k ∧
          n.Allocatable.get? TotalVFsResource = some total ∧
          msg.Allocated = (ledgerEntry (visitAll clock 0 pre
            { ext := ext, result := { Nodes := [], FailedNodes := [], Error := "" } }
              ).ext.allocatedVFs n.Name).2 ∧
          msg.Allocated = (ledgerEntry ext.allocatedVFs n.Name).2 ∧
          msg.Promised = (visitAll clock 0 pre
            { ext := ext, result := { Nodes := [], FailedNodes := [], Error := "" } }
              ).ext.promisedVFs ∧
          msg.Total = total - msg.Allocated - msg.Promised ∧
          Cmp msg.Total zero = 1 ∧
          (visit (clock pre.length) (visitAll clock 0 pre
            { ext := ext, result := { Nodes := [], FailedNodes := [], Error := "" } })
              n).result.FailedNodes.get? k = some msg := by
  obtain ⟨r, hr, _, hfailed⟩ := FilterArgs_result_of_selected ext args clock hsel
  refine ⟨r, hr, ?_⟩
  intro k msg hget
  rw [hfailed] at hget
  rcases visitAll_failed_origin clock args.Nodes 0 _ k msg hget with
    hbad | ⟨pre, n, post, total, hsplit, hname, hcap, hpos, hmsg⟩
  · simp [GoMap.get?] at hbad
  · refine ⟨pre, n, post, total, hsplit, hname, hcap, ?_, ?_, ?_, ?_, ?_, ?_⟩
    · rw [hmsg]
    · rw [hmsg]
      cases hx : GoMap.get? ext.allocatedVFs n.Name with
      | some v =>
        rw [ledgerEntry_of_some _ _ v hx,
          ledgerEntry_of_some _ _ v (visitAll_ledger_stable clock pre 0 _ _ v hx)]
      | none =>
        rw [ledgerEntry_of_none _ _ hx]
        rcases visitAll_ledger_fresh clock pre 0
            { ext := ext, result := { Nodes := [], FailedNodes := [], Error := "" } } n.Name hx
          with hf | hf
        · rw [ledgerEntry_of_none _ _ hf]
        · rw [ledgerEntry_of_some _ _ 0 hf]
    · rw [hmsg]
    · rw [hmsg]
      rfl
    · rw [hmsg]
      by_contra hne
      exact absurd ((Cmp_zero_ne_one _).1 hne) (not_le.2 hpos)
    · rcases visit_cases (clock pre.length) (visitAll clock 0 pre
          { ext := ext, result := { Nodes := [], FailedNodes := [], Error := "" } }) n with
        ⟨hc, _⟩ | ⟨t, hc, hle, _⟩ | ⟨t, hc, _, hv⟩
      · rw [hcap] at hc
        cases hc
      · rw [hcap] at hc
        cases hc
        exact absurd hle (not_le.2 hpos)
      · rw [hcap] at hc
        cases hc
        rw [hv, hmsg, ← hname]
        exact GoMap.get?_set_self _ _ _

/-- C16, evaluated: with one promise outstanding and the candidates `node-1`
(capacity 1) and `node-2` (capacity 9), `node-2` is rejected with allocated 0,
promised count 2 and remaining capacity 9 - 0 - 2 = 7. In the string stored for
it the allocated and the promised figure are printed by the `String` method
(`str`), and the remaining capacity, passed by value, is printed by the default
formatting of a struct value (`dump`), whatever the two renderings are. -/
theorem C16_total_printed_by_value (str dump : Int → String) :
    onePromise.selector sriovPod = true ∧
    ((FilterArgs onePromise
        { Pod := sriovPod, Nodes := [nodeWith "node-1" 1, nodeWith "node-2" 9] }
        tick).result.bind (fun r => GoMap.get? r.FailedNodes "node-2"))
      = some { Allocated := 0, Promised := 2, Total := 7 } ∧
    ((FilterArgs onePromise
        { Pod := sriovPod, Nodes := [nodeWith "node-1" 1, nodeWith "node-2" 9] }
        tick).result.bind (fun r => GoMap.get? r.FailedNodes "node-2")).map
          (FailMsg.text str dump)
      = some ("Not sufficient number of VFs. Allocated: " ++ str 0 ++
          ". Promised: " ++ str 2 ++ ". Total: " ++ dump 7) := by
  have hval : ((FilterArgs onePromise
        { Pod := sriovPod, Nodes := [nodeWith "node-1" 1, nodeWith "node-2" 9] }
        tick).result.bind (fun r => GoMap.get? r.FailedNodes "node-2"))
      = some { Allocated := 0, Promised := 2, Total := 7 } := by decide
  refine ⟨by decide, hval, ?_⟩
  rw [hval]
  rfl

/-- C17. In every state reached from `NewExtender` by a finite sequence of
`FilterArgs` calls, every entry of the ledger `allocatedVFs` has value zero, so
the free-capacity figure of any node is its advertised total minus the global
promised count. -/
theorem C17_ledger_always_zero (sel : Selector) (calls : List (ExtenderArgs × (Nat → Nat))) :
    (∀ p ∈ (serve (NewExtender sel) calls).allocatedVFs, p.2 = 0) ∧
    (∀ (x : String) (v : Int),
      GoMap.get? (serve (NewExtender sel) calls).allocatedVFs x = some v → v = 0) ∧
    (∀ (node : Node) (total : Int),
      free (serve (NewExtender sel) calls) node total
        = total - (serve (NewExtender sel) calls).promisedVFs) := by
  have hz : ∀ p ∈ (serve (NewExtender sel) calls).allocatedVFs, p.2 = 0 :=
    serve_ledger_zero calls (NewExtender sel) (by simp [NewExtender])
  refine ⟨hz, ?_, ?_⟩
  · intro x v hx
    exact hz (x, v) (GoMap.mem_of_get? _ x v hx)
  · intro node total
    unfold free
    rw [ledgerEntry_snd_zero _ node.Name hz]
    ring

/-- C18. For every state and request, the promise log after `FilterArgs` is the
log before the call followed by the new entries (nothing is removed or
rewritten), and the promised count after the call is at least the count
before. -/
theorem C18_promises_never_expire (ext : Extender) (args : ExtenderArgs)
    (clock : Nat → Nat) :
    (∃ added : List Nat, (FilterArgs ext args clock).ext.promises = ext.promises ++ added) ∧
    (FilterArgs ext args clock).ext.promises.take ext.promises.length = ext.promises ∧
    ext.promisedVFs ≤ (FilterArgs ext args clock).ext.promisedVFs := by
  cases hsel : ext.selector args.Pod with
  | false => simp [FilterArgs, hsel]
  | true =>
    obtain ⟨r, added, _, h1, h2, _⟩ := FilterArgs_account ext args clock hsel
    refine ⟨⟨added, h1⟩, ?_, ?_⟩
    · rw [h1]
      simp
    · rw [h2]
      have hpos : (0 : Int) ≤ (added.length : Int) := Int.ofNat_nonneg _
      omega

/-- C19. For a pod the selector accepts, the ledger keys after `FilterArgs` are
the keys before the call together with the names of all candidate nodes, the
skipped ones included: the iteration on a node without `totalvfs` entry and
without ledger entry adds the entry, so the call changes the state of the
extender. -/
theorem C19_ledger_keys (ext : Extender) (args : ExtenderArgs) (clock : Nat → Nat)
    (h : ext.selector args.Pod = true) :
    (∀ x : String, x ∈ GoMap.keys (FilterArgs ext args clock).ext.allocatedVFs ↔
      x ∈ GoMap.keys ext.allocatedVFs ∨ ∃ n ∈ args.Nodes, n.Name = x) ∧
    (∀ n ∈ args.Nodes, n.Allocatable.get? TotalVFsResource = none →
      n.Name ∉ GoMap.keys ext.allocatedVFs →
      n.Name ∈ GoMap.keys (FilterArgs ext args clock).ext.allocatedVFs ∧
      (FilterArgs ext args clock).ext.allocatedVFs ≠ ext.allocatedVFs) ∧
    (∀ (now : Nat) (st : LoopState) (n : Node),
      n.Allocatable.get? TotalVFsResource = none →
      n.Name ∉ GoMap.keys st.ext.allocatedVFs →
      (visit now st n).ext.allocatedVFs = GoMap.set st.ext.allocatedVFs n.Name 0 ∧
      (visit now st n).ext.allocatedVFs ≠ st.ext.allocatedVFs) := by
  have hkeys : ∀ x : String, x ∈ GoMap.keys (FilterArgs ext args clock).ext.allocatedVFs ↔
      x ∈ GoMap.keys ext.allocatedVFs ∨ ∃ n ∈ args.Nodes, n.Name = x := by
    intro x
    rw [FilterArgs_ext_of_selected ext args clock h]
    exact visitAll_ledger_keys clock args.Nodes 0 _ x
  refine ⟨hkeys, ?_, ?_⟩
  · intro n hn _ hnew
    have hin : n.Name ∈ GoMap.keys (FilterArgs ext args clock).ext.allocatedVFs :=
      (hkeys n.Name).2 (Or.inr ⟨n, hn, rfl⟩)
    refine ⟨hin, ?_⟩
    intro heq
    rw [heq] at hin
    exact hnew hin
  · intro now st n _ hnew
    have hnone : GoMap.get? st.ext.allocatedVFs n.Name = none :=
      (GoMap.get?_eq_none_iff _ _).2 hnew
    have hv : (visit now st n).ext.allocatedVFs = GoMap.set st.ext.allocatedVFs n.Name 0 := by
      rw [visit_ledger, ledgerEntry_of_none _ _ hnone]
    refine ⟨hv, ?_⟩
    intro heq
    have hin : n.Name ∈ GoMap.keys (visit now st n).ext.allocatedVFs := by
      rw [hv]
      exact (GoMap.mem_keys_set _ _ _ _).2 (Or.inl rfl)
    rw [heq] at hin
    exact hnew hin

/-- C19, at a fresh extender and a request whose only candidate is skipped. -/
theorem C19_ledger_keys_witness :
    (NewExtender sriovSelector).selector sriovPod = true ∧
    (bareNode "node-3").Allocatable.get? TotalVFsResource = none ∧
    (bareNode "node-3").Name ∉ GoMap.keys (NewExtender sriovSelector).allocatedVFs ∧
    (bareNode "node-3").Name ∈ GoMap.keys (FilterArgs (NewExtender sriovSelector)
      { Pod := sriovPod, Nodes := [bareNode "node-3"] } tick).ext.allocatedVFs ∧
    (FilterArgs (NewExtender sriovSelector)
      { Pod := sriovPod, Nodes := [bareNode "node-3"] } tick).ext.allocatedVFs
        ≠ (NewExtender sriovSelector).allocatedVFs :=
  ⟨by decide, by decide, by decide,
   (C19_ledger_keys (NewExtender sriovSelector)
      { Pod := sriovPod, Nodes := [bareNode "node-3"] } tick (by decide)).2.1
      (bareNode "node-3") (by decide) (by decide) (by decide)⟩

end Sriov
